import Mathlib

/-!
Verification of `src/deeptools/bigwigCorrelate.py`.

The pure fragments of the program (argument post-processing, label
derivation, the control flow of `main`, the raw-file header finalization)
are embedded as Lean functions.  The scoring engine
`deeptools.getScorePerBigWigBin.getScorePerBin` is an external module of
the repository that is not under `src/`; the parts of its behaviour the
claims need are modelled from the spec and marked as such in their doc
comments.  `main` is parameterized over the engine as a function value.
-/

namespace BigwigCorrelate

/-- os.path.basename on a posix path (used in `process_args`, line 94 of the
source): the characters after the last slash. -/
def basename (p : String) : String :=
  String.mk ((p.toList.reverse.takeWhile (fun c => c ≠ '/')).reverse)

/-- Python str.split with the slash as separator, over character lists
(always returns a nonempty list, like Python split). -/
def splitSlash : List Char → List (List Char)
  | [] => [[]]
  | c :: rest =>
    if c = '/' then [] :: splitSlash rest
    else
      match splitSlash rest with
      | [] => [[c]]
      | h :: t => (c :: h) :: t

/-- Python `f.split("/")[-1]` (used for URL-style sources, line 92). -/
def lastSegment (f : String) : String :=
  String.mk ((splitSlash f.toList).getLastD [])

/-- Line 91 of the source: the file name starts with one of the three URL
schemes `http://`, `https://`, `ftp://`. -/
def isRemote (f : String) : Bool :=
  List.isPrefixOf "http://".toList f.toList
    || List.isPrefixOf "https://".toList f.toList
    || List.isPrefixOf "ftp://".toList f.toList

/-- Lines 91-94: the label derived for one bigWig file when the user gave
no labels. -/
def deriveLabel (f : String) : String :=
  if isRemote f = true then lastSegment f else basename f

/-- Command-line argument record as it reaches `process_args` (fields from
`bigwigCorrelateArgs` and the parent parser).  `labels = none` models the
argparse default `None`; both sub-commands define `--BED`, so it is always
a field (default `None` in bins mode). -/
structure Args where
  bwfiles : List String
  labels : Option (List String)
  binSize : Int
  distanceBetweenBins : Int
  numberOfProcessors : Nat
  chromosomesToSkip : List String
  region : Option String
  BED : Option String
  outFileName : String
  outRawCounts : Option String
  verbose : Bool
deriving DecidableEq

/-- Arguments after `process_args`: `labels` is now a definite list. -/
structure PArgs where
  bwfiles : List String
  labels : List String
  binSize : Int
  distanceBetweenBins : Int
  numberOfProcessors : Nat
  chromosomesToSkip : List String
  region : Option String
  BED : Option String
  outFileName : String
  outRawCounts : Option String
  verbose : Bool
deriving DecidableEq

/-- Python truthiness of `args.labels` (`None` and the empty list are
falsy). -/
def truthyLabels : Option (List String) → Bool
  | none => false
  | some l => !l.isEmpty

/-- Message printed on a label/file count mismatch (line 86). -/
def labelsMismatchMsg : String :=
  "The number of labels does not match the number of bigWig files."

/-- `process_args` (lines 82-96).  On a label/file count mismatch the
program prints the message and calls `exit(0)`; this is modelled as an
`error` value carrying the exit status and the message.  Otherwise, when
no labels were supplied, one label per file is derived. -/
def process_args (a : Args) : Except (Nat × String) PArgs :=
  if truthyLabels a.labels = true ∧ a.bwfiles.length ≠ (a.labels.getD []).length then
    Except.error (0, labelsMismatchMsg)
  else
    Except.ok
      { bwfiles := a.bwfiles
        labels :=
          if truthyLabels a.labels = false then a.bwfiles.map deriveLabel
          else a.labels.getD []
        binSize := a.binSize
        distanceBetweenBins := a.distanceBetweenBins
        numberOfProcessors := a.numberOfProcessors
        chromosomesToSkip := a.chromosomesToSkip
        region := a.region
        BED := a.BED
        outFileName := a.outFileName
        outRawCounts := a.outRawCounts
        verbose := a.verbose }

/-- The argument tuple `main` passes to `score_bw.getScorePerBin`
(lines 209-218). -/
structure EngineCall where
  bigwigFilesList : List String
  binLength : Int
  numberOfProcessors : Nat
  stepSize : Int
  verbose : Bool
  region : Option String
  bedFile : Option String
  chrsToSkip : List String
  out_file_for_raw_data : Option String
deriving DecidableEq

/-- Construction of the engine call, exactly as in lines 209-218; in
particular `stepSize = binSize + distanceBetweenBins` (line 213). -/
def mkEngineCall (pa : PArgs) : EngineCall :=
  { bigwigFilesList := pa.bwfiles
    binLength := pa.binSize
    numberOfProcessors := pa.numberOfProcessors
    stepSize := pa.binSize + pa.distanceBetweenBins
    verbose := pa.verbose
    region := pa.region
    bedFile := pa.BED
    chrsToSkip := pa.chromosomesToSkip
    out_file_for_raw_data := pa.outRawCounts }

/-- Content of the compressed container saved by `np.savez_compressed`
(lines 228-230): the matrix and the labels array. -/
structure Npz where
  matrix : List (List Rat)
  labels : List String
deriving DecidableEq

/-- Observable outcome of one run of `main`.  `exited` is an exit before
the engine call (no file scored); `exitedAfterEngine` is the too-few-bins
exit, after the engine call, with the stderr line that was printed;
`finished` carries the saved npz content and, when raw output was
requested, the final content of the raw file. -/
inductive MainResult where
  | exited (code : Nat) (message : String)
  | exitedAfterEngine (call : EngineCall) (stderrOut : String) (code : Nat) (message : String)
  | finished (call : EngineCall) (stderrOut : String) (saved : Npz) (rawOut : Option String)
deriving DecidableEq

/-- Message printed when fewer than two files are given (line 195). -/
def fewFilesMsg : String :=
  "Please input at least two bigWig (.bw) files to compare"

/-- Message printed by the dead second file-count check (line 206). -/
def noValidFilesMsg : String := "No valid bigwig files"

/-- Message passed to `exit(...)` when fewer than two bins survive
(lines 224-226); `exit` with a string argument prints it and exits with
status 1. -/
def tooFewMsg : String :=
  "ERROR: too few non zero bins found.\nIf using --region please check that this region is covered by reads.\n"

/-- The header prepended to the raw counts file (lines 235-236): column
names and labels are wrapped in single quotes (written \x27 here), the
first column is named `chr`. -/
def rawHeader (labels : List String) : String :=
  "#\x27chr\x27\t\x27start\x27\t\x27end\x27\t"
    ++ "\x27" ++ String.intercalate "\x27\t\x27" labels ++ "\x27\n"

/-- File write at a byte position (model of `f.seek(pos); f.write(new)` on
a file opened `r+` with current content `old`). -/
def writeAt (old : String) (pos : Nat) (new : String) : String :=
  String.mk (old.toList.take pos ++ new.toList ++ old.toList.drop (pos + new.length))

/-- Lines 238-241: read the whole raw file, seek to position 0, and write
header followed by the previous content. -/
def prependHeader (header content : String) : String :=
  writeAt content 0 (header ++ content)

/-- `main` (lines 184-241), parameterized by the scoring engine: the
engine receives the call tuple and returns the score matrix together with
the bytes it wrote into the raw counts file (meaningful only when
`out_file_for_raw_data` is set).  `shape[0]` of the numpy matrix is the
number of rows, here the length of the outer list. -/
def mainRun (a : Args) (engine : EngineCall → List (List Rat) × String) : MainResult :=
  match process_args a with
  | Except.error em => MainResult.exited em.1 em.2
  | Except.ok pa =>
    if pa.bwfiles.length < 2 then
      MainResult.exited 1 fewFilesMsg
    else if pa.bwfiles.length = 0 then
      MainResult.exited 1 noValidFilesMsg
    else if (engine (mkEngineCall pa)).1.length < 2 then
      MainResult.exitedAfterEngine (mkEngineCall pa)
        ("Number of bins found: " ++ toString (engine (mkEngineCall pa)).1.length ++ "\n")
        1 tooFewMsg
    else
      MainResult.finished (mkEngineCall pa)
        ("Number of bins found: " ++ toString (engine (mkEngineCall pa)).1.length ++ "\n")
        ⟨(engine (mkEngineCall pa)).1, pa.labels⟩
        (match pa.outRawCounts with
          | some _ => some (prependHeader (rawHeader pa.labels) (engine (mkEngineCall pa)).2)
          | none => none)

/-- Modelled from the spec: the scoring engine `getScorePerBin`
(module `deeptools.getScorePerBigWigBin`, not under `src/`).  Input: the
per-unit rows of per-file average scores, in unit order.  The degeneracy
filter of spec section 4.3 drops every unit for which all files report 0.
`main` itself uses `num_reads_per_bin.shape[0]` as the retained-bin count
(lines 220-226), so the returned matrix has one row per retained unit and
one column per file. -/
def getScorePerBinModel (perUnitScores : List (List Rat)) : List (List Rat) :=
  perUnitScores.filter (fun row => !(row.all (fun v => decide (v = 0))))

/-- Engine that ignores its call and returns fixed data. -/
def constEngine (m : List (List Rat)) (raw : String) : EngineCall → List (List Rat) × String :=
  fun _ => (m, raw)

/-- The engine call made by a run, when one was made. -/
def engineCallOf : MainResult → Option EngineCall
  | MainResult.exited _ _ => none
  | MainResult.exitedAfterEngine c _ _ _ => some c
  | MainResult.finished c _ _ _ => some c

/-- The saved npz content of a completed run. -/
def savedOf : MainResult → Option Npz
  | MainResult.finished _ _ s _ => some s
  | _ => none

/-- The final raw-file content of a completed run with raw output. -/
def rawOutOf : MainResult → Option String
  | MainResult.finished _ _ _ (some r) => some r
  | _ => none

/-- The exit status of a run that exited. -/
def exitCodeOf : MainResult → Option Nat
  | MainResult.exited c _ => some c
  | MainResult.exitedAfterEngine _ _ c _ => some c
  | MainResult.finished _ _ _ _ => none

/-- The message of a run that exited. -/
def exitMessageOf : MainResult → Option String
  | MainResult.exited _ m => some m
  | MainResult.exitedAfterEngine _ _ _ m => some m
  | MainResult.finished _ _ _ _ => none

/-- The stderr bin-count line of a run that reached the engine. -/
def stderrOf : MainResult → Option String
  | MainResult.exited _ _ => none
  | MainResult.exitedAfterEngine _ s _ _ => some s
  | MainResult.finished _ s _ _ => some s

/-- The first line of a text file. -/
def firstLine (s : String) : String :=
  String.mk (s.toList.takeWhile (fun c => c ≠ '\n'))

/-- A genomic analysis unit (spec section 3): half-open interval on a
chromosome. -/
structure GenomicUnit where
  chrom : String
  start : Int
  stop : Int
deriving DecidableEq

/-- Modelled from the spec: the ParallelAggregator (spec sections 4.3, 5;
implemented in `deeptools.getScorePerBigWigBin`, not under `src/`).  Units
are grouped into contiguous chunks; the result of chunk `i` is the list of
per-unit score rows of that chunk, tagged with the chunk index, exactly
the `(chunkIndex, values)` tuples workers return. -/
def chunkResults (chunks : List (List GenomicUnit)) (scoreRow : GenomicUnit → List Rat) :
    List (Nat × List (List Rat)) :=
  (chunks.map (fun ch => ch.map scoreRow)).enum

/-- Lookup of a chunk index in the collected worker results (the
preallocated-array read of spec section 4.3). -/
def lookupChunk (i : Nat) : List (Nat × List (List Rat)) → Option (List (List Rat))
  | [] => none
  | (j, v) :: rest => if i = j then some v else lookupChunk i rest

/-- Modelled from the spec: the aggregator merge (spec section 4.3) — the
collected `(chunkIndex, values)` tuples, delivered in arbitrary completion
order, are written back into chunk-index order and concatenated. -/
def mergeChunks (n : Nat) (results : List (Nat × List (List Rat))) : List (List Rat) :=
  ((List.range n).map (fun i => (lookupChunk i results).getD [])).flatten

/-- Argument record builder used by the concrete runs below (only the
fields the claims vary). -/
def mkArgs (files : List String) (ls : Option (List String)) (bs dbb : Int)
    (raw : Option String) : Args :=
  { bwfiles := files, labels := ls, binSize := bs, distanceBetweenBins := dbb,
    numberOfProcessors := 4, chromosomesToSkip := [], region := none, BED := none,
    outFileName := "results.npz", outRawCounts := raw, verbose := false }

/-- Two local files, raw output requested. -/
def argsA : Args := mkArgs ["a.bw", "b.bw"] none 10000 0 (some "raw.tab")

/-- `argsA` after `process_args`. -/
def paA : PArgs :=
  { bwfiles := ["a.bw", "b.bw"], labels := ["a.bw", "b.bw"], binSize := 10000,
    distanceBetweenBins := 0, numberOfProcessors := 4, chromosomesToSkip := [],
    region := none, BED := none, outFileName := "results.npz",
    outRawCounts := some "raw.tab", verbose := false }

/-- Engine returning a 2-row matrix and two raw score rows. -/
def engA : EngineCall → List (List Rat) × String :=
  constEngine [[1, 2], [3, 4]]
    "chr1\t0\t10000\t1\t2\nchr1\t10000\t20000\t3\t4\n"

/-- Two local files, no raw output. -/
def argsB : Args := mkArgs ["a.bw", "b.bw"] none 10000 0 none

/-- `argsB` after `process_args`. -/
def paB : PArgs :=
  { bwfiles := ["a.bw", "b.bw"], labels := ["a.bw", "b.bw"], binSize := 10000,
    distanceBetweenBins := 0, numberOfProcessors := 4, chromosomesToSkip := [],
    region := none, BED := none, outFileName := "results.npz", outRawCounts := none,
    verbose := false }

/-- Per-unit score rows: three units, the middle one all-zero. -/
def scoresB : List (List Rat) := [[1, 2], [0, 0], [3, 4]]

/-- Engine returning a single retained bin. -/
def engOne : EngineCall → List (List Rat) × String := constEngine [[7, 7]] ""

/-- Engine returning two retained bins. -/
def engC : EngineCall → List (List Rat) × String := constEngine [[1, 1], [2, 2]] ""

/-- Two files with a gap between bins. -/
def argsC : Args := mkArgs ["a.bw", "b.bw"] none 10000 300 none

/-- `argsC` after `process_args`. -/
def paC : PArgs :=
  { bwfiles := ["a.bw", "b.bw"], labels := ["a.bw", "b.bw"], binSize := 10000,
    distanceBetweenBins := 300, numberOfProcessors := 4, chromosomesToSkip := [],
    region := none, BED := none, outFileName := "results.npz", outRawCounts := none,
    verbose := false }

/-- Two files with binSize 0. -/
def argsD : Args := mkArgs ["a.bw", "b.bw"] none 0 0 none

/-- `argsD` after `process_args`. -/
def paD : PArgs :=
  { bwfiles := ["a.bw", "b.bw"], labels := ["a.bw", "b.bw"], binSize := 0,
    distanceBetweenBins := 0, numberOfProcessors := 4, chromosomesToSkip := [],
    region := none, BED := none, outFileName := "results.npz", outRawCounts := none,
    verbose := false }

/-- A single input file. -/
def argsE : Args := mkArgs ["only.bw"] none 10000 0 none

/-- `argsE` after `process_args`. -/
def paE : PArgs :=
  { bwfiles := ["only.bw"], labels := ["only.bw"], binSize := 10000,
    distanceBetweenBins := 0, numberOfProcessors := 4, chromosomesToSkip := [],
    region := none, BED := none, outFileName := "results.npz", outRawCounts := none,
    verbose := false }

/-- A URL-style source and a local path, no labels supplied. -/
def argsF : Args := mkArgs ["http://host/x.bw", "data/y.bw"] none 10000 0 none

/-- `argsF` after `process_args`. -/
def paF : PArgs :=
  { bwfiles := ["http://host/x.bw", "data/y.bw"], labels := ["x.bw", "y.bw"],
    binSize := 10000, distanceBetweenBins := 0, numberOfProcessors := 4,
    chromosomesToSkip := [], region := none, BED := none,
    outFileName := "results.npz", outRawCounts := none, verbose := false }

/-- Two single-unit chunks and a scoring function for the determinism
claim. -/
def u1 : GenomicUnit := ⟨"chr1", 0, 10000⟩

/-- Second unit. -/
def u2 : GenomicUnit := ⟨"chr1", 10000, 20000⟩

/-- The chunk list for the determinism witness. -/
def chunksW : List (List GenomicUnit) := [[u1], [u2]]

/-- The per-unit score rows for the determinism witness. -/
def scoreW : GenomicUnit → List Rat := fun u => if u.start = 0 then [1, 2] else [3, 4]

/-- Worker results delivered in submission order. -/
def rA : List (Nat × List (List Rat)) := [(0, [[1, 2]]), (1, [[3, 4]])]

/-- Worker results delivered in reversed completion order. -/
def rB : List (Nat × List (List Rat)) := [(1, [[3, 4]]), (0, [[1, 2]])]

/-- Fields `process_args` copies unchanged into its result. -/
theorem process_args_fields (a : Args) (pa : PArgs) (h : process_args a = Except.ok pa) :
    pa.bwfiles = a.bwfiles ∧ pa.binSize = a.binSize
      ∧ pa.distanceBetweenBins = a.distanceBetweenBins
      ∧ pa.outRawCounts = a.outRawCounts := by
  unfold process_args at h
  split at h
  · cases h
  · cases h
    exact ⟨rfl, rfl, rfl, rfl⟩

/-- The labels produced by `process_args`: the supplied ones when truthy,
otherwise one derived label per file. -/
theorem process_args_labels (a : Args) (pa : PArgs) (h : process_args a = Except.ok pa) :
    pa.labels = if truthyLabels a.labels = false then a.bwfiles.map deriveLabel
                else a.labels.getD [] := by
  unfold process_args at h
  split at h
  · cases h
  · cases h
    rfl

/-- Whenever `process_args` succeeds, there is exactly one label per
file. -/
theorem process_args_labels_len (a : Args) (pa : PArgs) (h : process_args a = Except.ok pa) :
    pa.labels.length = a.bwfiles.length := by
  have hl := process_args_labels a pa h
  by_cases ht : truthyLabels a.labels = true
  · have hcond : ¬ (truthyLabels a.labels = true
        ∧ a.bwfiles.length ≠ (a.labels.getD []).length) := by
      intro hc
      unfold process_args at h
      rw [if_pos hc] at h
      cases h
    have heq : a.bwfiles.length = (a.labels.getD []).length := by
      by_contra hne
      exact hcond ⟨ht, hne⟩
    rw [hl, if_neg (by simp [ht]), heq]
  · have ht2 : truthyLabels a.labels = false := by
      cases hx : truthyLabels a.labels
      · rfl
      · exact absurd hx ht
    rw [hl, if_pos ht2, List.length_map]

/-- Shape of a run that passes the file-count and bin-count guards. -/
theorem mainRun_eq_finished (a : Args) (e : EngineCall → List (List Rat) × String)
    (pa : PArgs) (hok : process_args a = Except.ok pa)
    (h2 : 2 ≤ pa.bwfiles.length)
    (hbins : 2 ≤ (e (mkEngineCall pa)).1.length) :
    mainRun a e = MainResult.finished (mkEngineCall pa)
      ("Number of bins found: " ++ toString (e (mkEngineCall pa)).1.length ++ "\n")
      ⟨(e (mkEngineCall pa)).1, pa.labels⟩
      (match pa.outRawCounts with
        | some _ => some (prependHeader (rawHeader pa.labels) (e (mkEngineCall pa)).2)
        | none => none) := by
  have hn2 : ¬ pa.bwfiles.length < 2 := by omega
  have hn0 : ¬ pa.bwfiles.length = 0 := by omega
  have hnb : ¬ (e (mkEngineCall pa)).1.length < 2 := by omega
  simp only [mainRun, hok]
  rw [if_neg hn2, if_neg hn0, if_neg hnb]

/-- Any run that passes the file-count guard calls the engine with the
tuple built by `mkEngineCall`. -/
theorem engineCallOf_mainRun_ok (a : Args) (e : EngineCall → List (List Rat) × String)
    (pa : PArgs) (hok : process_args a = Except.ok pa)
    (h2 : 2 ≤ pa.bwfiles.length) :
    engineCallOf (mainRun a e) = some (mkEngineCall pa) := by
  have hn2 : ¬ pa.bwfiles.length < 2 := by omega
  have hn0 : ¬ pa.bwfiles.length = 0 := by omega
  simp only [mainRun, hok]
  rw [if_neg hn2, if_neg hn0]
  by_cases hb : (e (mkEngineCall pa)).1.length < 2
  · rw [if_pos hb]
    rfl
  · rw [if_neg hb]
    rfl

/-- A string built from a character list round-trips. -/
theorem string_mk_toList (s : String) : String.mk s.toList = s := by
  cases s
  rfl

/-- Length of a string concatenation. -/
theorem string_length_append (s t : String) : (s ++ t).length = s.length + t.length := by
  cases s with
  | mk a =>
    cases t with
    | mk b => exact List.length_append a b

/-- The read/seek/write finalization equals plain concatenation: the new
text is at least as long as the old, so the overwrite leaves nothing of
the old bytes beyond it. -/
theorem prependHeader_eq (h c : String) : prependHeader h c = h ++ c := by
  unfold prependHeader writeAt
  have hd : c.toList.drop (0 + (h ++ c).length) = [] := by
    apply List.drop_eq_nil_of_le
    have h1 : (h ++ c).length = h.length + c.length := string_length_append h c
    have h2 : c.toList.length = c.length := rfl
    omega
  rw [hd, List.take_zero, List.append_nil, List.nil_append, string_mk_toList]

/-- `lookupChunk` misses exactly the indices absent from the results. -/
theorem lookupChunk_eq_none_iff (i : Nat) (l : List (Nat × List (List Rat))) :
    lookupChunk i l = none ↔ i ∉ l.map Prod.fst := by
  induction l with
  | nil => simp [lookupChunk]
  | cons p t ih =>
    obtain ⟨j, w⟩ := p
    simp only [lookupChunk, List.map_cons, List.mem_cons]
    by_cases hij : i = j
    · subst hij
      simp
    · rw [if_neg hij, ih]
      simp [hij]

/-- A successful `lookupChunk` returns a stored tuple. -/
theorem mem_of_lookupChunk_eq_some (i : Nat) (v : List (List Rat))
    (l : List (Nat × List (List Rat))) (h : lookupChunk i l = some v) : (i, v) ∈ l := by
  induction l with
  | nil => cases h
  | cons p t ih =>
    obtain ⟨j, w⟩ := p
    simp only [lookupChunk] at h
    by_cases hij : i = j
    · subst hij
      rw [if_pos rfl] at h
      cases h
      exact List.mem_cons_self _ _
    · rw [if_neg hij] at h
      exact List.mem_cons_of_mem _ (ih h)

/-- With pairwise distinct chunk indices, `lookupChunk` finds every stored
tuple. -/
theorem lookupChunk_eq_some_of_mem (i : Nat) (v : List (List Rat))
    (l : List (Nat × List (List Rat))) (hnd : (l.map Prod.fst).Nodup)
    (hmem : (i, v) ∈ l) : lookupChunk i l = some v := by
  induction l with
  | nil => cases hmem
  | cons p t ih =>
    obtain ⟨j, w⟩ := p
    simp only [List.map_cons, List.nodup_cons] at hnd
    rcases List.mem_cons.mp hmem with heq | hmem2
    · cases heq
      simp [lookupChunk]
    · have hij : i ≠ j := by
        intro hx
        subst hx
        exact hnd.1 (List.mem_map.mpr ⟨(i, v), hmem2, rfl⟩)
      simp only [lookupChunk]
      rw [if_neg hij]
      exact ih hnd.2 hmem2

/-- `lookupChunk` is invariant under reordering of the results when chunk
indices are pairwise distinct. -/
theorem lookupChunk_perm (i : Nat) (l₁ l₂ : List (Nat × List (List Rat)))
    (hp : l₁.Perm l₂) (hnd : (l₁.map Prod.fst).Nodup) :
    lookupChunk i l₁ = lookupChunk i l₂ := by
  have hnd2 : (l₂.map Prod.fst).Nodup := ((hp.map Prod.fst).nodup_iff).mp hnd
  cases hv : lookupChunk i l₁ with
  | none =>
    rw [lookupChunk_eq_none_iff] at hv
    symm
    rw [lookupChunk_eq_none_iff]
    intro hmem
    exact hv ((hp.map Prod.fst).mem_iff.mpr hmem)
  | some v =>
    have hmem : (i, v) ∈ l₂ := hp.mem_iff.mp (mem_of_lookupChunk_eq_some i v l₁ hv)
    exact (lookupChunk_eq_some_of_mem i v l₂ hnd2 hmem).symm

/-- `lookupChunk` on an indexed list reads off the list. -/
theorem lookupChunk_enumFrom (l : List (List (List Rat))) (n i : Nat) :
    lookupChunk i (List.enumFrom n l) = if i < n then none else l.get? (i - n) := by
  induction l generalizing n with
  | nil => simp [lookupChunk, List.enumFrom]
  | cons b t ih =>
    simp only [List.enumFrom, lookupChunk]
    by_cases hij : i = n
    · subst hij
      rw [if_pos rfl, if_neg (Nat.lt_irrefl i), Nat.sub_self]
      rfl
    · rw [if_neg hij, ih (n + 1)]
      by_cases hlt : i < n
      · rw [if_pos (by omega), if_pos hlt]
      · rw [if_neg (by omega), if_neg hlt]
        have hsub : i - n = (i - (n + 1)) + 1 := by omega
        rw [hsub]
        rfl

/-- Reading every position of a list in order reproduces the list. -/
theorem map_range_getD {α : Type} (l : List α) (d : α) :
    (List.range l.length).map (fun i => (l.get? i).getD d) = l := by
  induction l with
  | nil => simp
  | cons b t ih =>
    rw [List.length_cons, List.range_succ_eq_map, List.map_cons, List.map_map]
    have h1 : ((b :: t).get? 0).getD d = b := rfl
    have h2 : ((fun i => ((b :: t).get? i).getD d) ∘ Nat.succ)
        = fun i => (t.get? i).getD d := by
      funext i
      rfl
    rw [h1, h2, ih]

/-- Merging any completion-order permutation of the indexed chunk rows
reconstructs the rows in chunk order. -/
theorem mergeChunks_perm_enum (rows : List (List (List Rat)))
    (r : List (Nat × List (List Rat))) (hp : r.Perm rows.enum) :
    mergeChunks rows.length r = rows.flatten := by
  have hnd : (rows.enum.map Prod.fst).Nodup := List.nodup_enum_map_fst rows
  have hl : ∀ i, lookupChunk i r = rows.get? i := by
    intro i
    rw [lookupChunk_perm i r rows.enum hp (((hp.map Prod.fst).nodup_iff).mpr hnd)]
    have he : rows.enum = List.enumFrom 0 rows := rfl
    rw [he, lookupChunk_enumFrom]
    simp
  unfold mergeChunks
  simp only [hl]
  rw [map_range_getD]

/-- C1 (counterexample): a run with 2 input files whose saved matrix has 3
rows — one per retained unit — so row i cannot correspond to file i for
every i.  Refutes the claim that `matrix` is files × retained-units with
row i ↔ file i. -/
theorem C1_counterexample :
    (savedOf (mainRun argsB (constEngine (getScorePerBinModel
        [[1, 2], [3, 4], [5, 6]]) ""))).map (fun s => s.matrix.length) = some 3
      ∧ argsB.bwfiles.length = 2
      ∧ ¬ (3 : Nat) = 2 := by decide

/-- C1 (amended): the labels saved beside the matrix are ordered exactly
as the bigWig files were given (the supplied list when labels were passed,
one derived label per file otherwise) and `len(labels) = len(files)`; file
i corresponds to COLUMN i of the saved matrix (every row has one entry per
file), while row i corresponds to retained unit i. -/
theorem C1_column_correspondence (a : Args) (scores : List (List Rat)) (raw : String)
    (pa : PArgs) (hok : process_args a = Except.ok pa)
    (h2 : 2 ≤ a.bwfiles.length)
    (hbins : 2 ≤ (getScorePerBinModel scores).length)
    (hrow : ∀ row ∈ scores, row.length = a.bwfiles.length) :
    savedOf (mainRun a (constEngine (getScorePerBinModel scores) raw))
        = some ⟨getScorePerBinModel scores, pa.labels⟩
      ∧ pa.labels.length = a.bwfiles.length
      ∧ (∀ row ∈ getScorePerBinModel scores, row.length = a.bwfiles.length)
      ∧ pa.labels = (if truthyLabels a.labels = false then a.bwfiles.map deriveLabel
                     else a.labels.getD []) := by
  obtain ⟨hbw, -, -, -⟩ := process_args_fields a pa hok
  have h2p : 2 ≤ pa.bwfiles.length := by rw [hbw]; exact h2
  have hbins2 : 2 ≤ ((constEngine (getScorePerBinModel scores) raw)
      (mkEngineCall pa)).1.length := hbins
  refine ⟨?_, process_args_labels_len a pa hok, ?_, process_args_labels a pa hok⟩
  · rw [mainRun_eq_finished a _ pa hok h2p hbins2]
    rfl
  · intro row hr
    exact hrow row (List.mem_of_mem_filter hr)

/-- C1 (witness): the amended statement at a concrete run with two files
and one all-zero unit among three. -/
theorem C1_column_correspondence_witness :
    savedOf (mainRun argsB (constEngine (getScorePerBinModel scoresB) ""))
        = some ⟨getScorePerBinModel scoresB, paB.labels⟩
      ∧ paB.labels.length = argsB.bwfiles.length
      ∧ (∀ row ∈ getScorePerBinModel scoresB, row.length = argsB.bwfiles.length)
      ∧ paB.labels = (if truthyLabels argsB.labels = false
                      then argsB.bwfiles.map deriveLabel
                      else argsB.labels.getD []) :=
  C1_column_correspondence argsB scoresB "" paB rfl (by decide) (by decide) (by decide)

/-- C2: on a label/file count mismatch the program prints the
configuration message and exits BEFORE any engine call — but with exit
status 0, not the non-zero status the claim requires.  Evaluation of the
model at the failing input. -/
theorem C2_labels_mismatch_exits_zero :
    mainRun (mkArgs ["a.bw", "b.bw"] (some ["sample1"]) 10000 0 none)
        (constEngine [] "") = MainResult.exited 0 labelsMismatchMsg
      ∧ engineCallOf (mainRun (mkArgs ["a.bw", "b.bw"] (some ["sample1"]) 10000 0 none)
          (constEngine [] "")) = none := by decide

/-- C3 (counterexample): a run whose retained count is 1 exits with status
1 and the fixed message `tooFewMsg`, which contains no digit at all — the
retained count does not appear in the error message (it appears only in
the preceding stderr line). -/
theorem C3_counterexample :
    exitCodeOf (mainRun argsB engOne) = some 1
      ∧ exitMessageOf (mainRun argsB engOne) = some tooFewMsg
      ∧ stderrOf (mainRun argsB engOne) = some "Number of bins found: 1\n"
      ∧ tooFewMsg.toList.all (fun ch => !ch.isDigit) = true := by decide

/-- C3 (amended): whenever fewer than 2 units survive, the program exits
after the engine call as a usage error with status 1 and a fixed message;
the retained count is printed in the stderr line `Number of bins found: N`
immediately before, not inside the error message. -/
theorem C3_too_few_bins (a : Args) (e : EngineCall → List (List Rat) × String)
    (pa : PArgs) (hok : process_args a = Except.ok pa)
    (h2 : 2 ≤ a.bwfiles.length)
    (hbins : (e (mkEngineCall pa)).1.length < 2) :
    mainRun a e = MainResult.exitedAfterEngine (mkEngineCall pa)
      ("Number of bins found: " ++ toString (e (mkEngineCall pa)).1.length ++ "\n")
      1 tooFewMsg := by
  obtain ⟨hbw, -, -, -⟩ := process_args_fields a pa hok
  have hn2 : ¬ pa.bwfiles.length < 2 := by rw [hbw]; omega
  have hn0 : ¬ pa.bwfiles.length = 0 := by rw [hbw]; omega
  simp only [mainRun, hok]
  rw [if_neg hn2, if_neg hn0, if_pos hbins]

/-- C3 (witness): the amended statement at a concrete run with one
retained bin. -/
theorem C3_too_few_bins_witness :
    mainRun argsB engOne = MainResult.exitedAfterEngine (mkEngineCall paB)
      ("Number of bins found: " ++ toString (engOne (mkEngineCall paB)).1.length ++ "\n")
      1 tooFewMsg :=
  C3_too_few_bins argsB engOne paB rfl (by decide) (by decide)

/-- C4: without user-supplied labels, the derived labels are, in file
order, the basename of each file name — except that URL-style sources take
the segment after the final slash — and one label is produced per file. -/
theorem C4_derived_labels (a : Args) (pa : PArgs)
    (hnone : a.labels = none) (hok : process_args a = Except.ok pa) :
    pa.labels = a.bwfiles.map
        (fun f => if isRemote f = true then lastSegment f else basename f)
      ∧ pa.labels.length = a.bwfiles.length := by
  have hl := process_args_labels a pa hok
  have ht : truthyLabels a.labels = false := by rw [hnone]; rfl
  rw [hl, if_pos ht]
  exact ⟨rfl, by rw [List.length_map]⟩

/-- C4 (witness): a URL-style source and a relative path. -/
theorem C4_derived_labels_witness :
    paF.labels = argsF.bwfiles.map
        (fun f => if isRemote f = true then lastSegment f else basename f)
      ∧ paF.labels.length = argsF.bwfiles.length :=
  C4_derived_labels argsF paF rfl rfl

/-- C5 (counterexample): the actual first line of the raw output wraps
every column name and label in single quotes and names the first column
`chr`, so it differs from the claimed header
`#chrom<TAB>start<TAB>end<TAB>a.bw<TAB>b.bw`. -/
theorem C5_counterexample :
    (rawOutOf (mainRun argsA engA)).map firstLine
        = some "#\x27chr\x27\t\x27start\x27\t\x27end\x27\t\x27a.bw\x27\t\x27b.bw\x27"
      ∧ ¬ (rawOutOf (mainRun argsA engA)).map firstLine
          = some "#chrom\tstart\tend\ta.bw\tb.bw" := by decide

/-- C5 (amended): for a completed run with raw output requested, the final
raw file is the quoted header `#'chr'...` line for the labels, prepended —
only after the numeric pass completed — to the score rows the engine
wrote. -/
theorem C5_raw_header_prepended (a : Args) (e : EngineCall → List (List Rat) × String)
    (pa : PArgs) (w : String) (hok : process_args a = Except.ok pa)
    (h2 : 2 ≤ a.bwfiles.length)
    (hbins : 2 ≤ (e (mkEngineCall pa)).1.length)
    (hraw : pa.outRawCounts = some w) :
    rawOutOf (mainRun a e) = some (rawHeader pa.labels ++ (e (mkEngineCall pa)).2) := by
  obtain ⟨hbw, -, -, -⟩ := process_args_fields a pa hok
  have h2p : 2 ≤ pa.bwfiles.length := by rw [hbw]; exact h2
  rw [mainRun_eq_finished a e pa hok h2p hbins, hraw]
  simp only [rawOutOf]
  rw [prependHeader_eq]

/-- C5 (witness): the amended statement at a concrete run. -/
theorem C5_raw_header_prepended_witness :
    rawOutOf (mainRun argsA engA)
      = some (rawHeader paA.labels ++ (engA (mkEngineCall paA)).2) :=
  C5_raw_header_prepended argsA engA paA "raw.tab" rfl (by decide) (by decide) rfl

/-- C6: every engine call made by a run carries
`stepSize = binSize + distanceBetweenBins`, so a zero gap gives adjacent
bins and a positive gap skips signal between bins. -/
theorem C6_stepSize_is_bin_plus_distance (a : Args)
    (e : EngineCall → List (List Rat) × String) (c : EngineCall)
    (h : engineCallOf (mainRun a e) = some c) :
    c.stepSize = a.binSize + a.distanceBetweenBins := by
  cases hok : process_args a with
  | error em =>
    simp only [mainRun, hok] at h
    simp [engineCallOf] at h
  | ok pa =>
    simp only [mainRun, hok] at h
    by_cases h2 : pa.bwfiles.length < 2
    · rw [if_pos h2] at h
      simp [engineCallOf] at h
    · rw [if_neg h2] at h
      by_cases h0 : pa.bwfiles.length = 0
      · rw [if_pos h0] at h
        simp [engineCallOf] at h
      · rw [if_neg h0] at h
        have hc : c = mkEngineCall pa := by
          by_cases hb : (e (mkEngineCall pa)).1.length < 2
          · rw [if_pos hb] at h
            simp [engineCallOf] at h
            exact h.symm
          · rw [if_neg hb] at h
            simp [engineCallOf] at h
            exact h.symm
        obtain ⟨-, hbs, hdb, -⟩ := process_args_fields a pa hok
        rw [hc]
        show pa.binSize + pa.distanceBetweenBins = a.binSize + a.distanceBetweenBins
        rw [hbs, hdb]

/-- C6 (witness): with binSize 10000 and gap 300 the engine is called with
stride 10300. -/
theorem C6_stepSize_witness :
    (mkEngineCall paC).stepSize = argsC.binSize + argsC.distanceBetweenBins :=
  C6_stepSize_is_bin_plus_distance argsC engC (mkEngineCall paC) rfl

/-- C7: the merged, degeneracy-filtered matrix is identical for any two
completion orders of the worker results — in particular for the orders
produced by 1 worker and by N > 1 workers — since both are permutations of
the same indexed chunk results. -/
theorem C7_parallel_determinism (chunks : List (List GenomicUnit))
    (scoreRow : GenomicUnit → List Rat)
    (r₁ r₂ : List (Nat × List (List Rat)))
    (h₁ : r₁.Perm (chunkResults chunks scoreRow))
    (h₂ : r₂.Perm (chunkResults chunks scoreRow)) :
    getScorePerBinModel (mergeChunks chunks.length r₁)
      = getScorePerBinModel (mergeChunks chunks.length r₂) := by
  have hlen : chunks.length = (chunks.map (fun ch => ch.map scoreRow)).length := by
    rw [List.length_map]
  rw [hlen, mergeChunks_perm_enum _ _ h₁, mergeChunks_perm_enum _ _ h₂]

/-- C7 (witness): in-order and reversed completion orders of two chunks
give the same matrix. -/
theorem C7_parallel_determinism_witness :
    getScorePerBinModel (mergeChunks chunksW.length rA)
      = getScorePerBinModel (mergeChunks chunksW.length rB) :=
  C7_parallel_determinism chunksW scoreW rA rB (by decide) (by decide)

/-- C8 (counterexample): a bin-mode run with binSize = 0 does not fail
before scoring — the engine is invoked with binLength 0 and the run
completes, refuting the claim that a ConfigurationError is raised before
any scoring work begins. -/
theorem C8_counterexample :
    (engineCallOf (mainRun argsD engC)).map (fun c => c.binLength) = some 0
      ∧ (savedOf (mainRun argsD engC)).isSome = true := by decide

/-- C8 (amended): `main` performs no binSize validation at all: for any
run past the file-count guard, even with binSize ≤ 0, the scoring engine
is called with the unvalidated binSize. -/
theorem C8_no_binSize_validation (a : Args)
    (e : EngineCall → List (List Rat) × String) (pa : PArgs)
    (hok : process_args a = Except.ok pa) (h2 : 2 ≤ a.bwfiles.length)
    (hbs : a.binSize ≤ 0) :
    engineCallOf (mainRun a e) = some (mkEngineCall pa)
      ∧ (mkEngineCall pa).binLength = a.binSize := by
  obtain ⟨hbw, hbsz, -, -⟩ := process_args_fields a pa hok
  have h2p : 2 ≤ pa.bwfiles.length := by rw [hbw]; exact h2
  exact ⟨engineCallOf_mainRun_ok a e pa hok h2p, hbsz⟩

/-- C8 (witness): the amended statement at binSize 0. -/
theorem C8_no_binSize_validation_witness :
    engineCallOf (mainRun argsD engC) = some (mkEngineCall paD)
      ∧ (mkEngineCall paD).binLength = argsD.binSize :=
  C8_no_binSize_validation argsD engC paD rfl (by decide) (by decide)

/-- C9: with fewer than two bigWig files the program prints the
please-input-two-files message and exits with status 1 before any engine
call (the `exited` outcome contains no engine call). -/
theorem C9_requires_two_files (a : Args) (e : EngineCall → List (List Rat) × String)
    (pa : PArgs) (hok : process_args a = Except.ok pa)
    (hlt : a.bwfiles.length < 2) :
    mainRun a e = MainResult.exited 1
      "Please input at least two bigWig (.bw) files to compare" := by
  obtain ⟨hbw, -, -, -⟩ := process_args_fields a pa hok
  simp only [mainRun, hok]
  rw [if_pos (by rw [hbw]; exact hlt)]
  rfl

/-- C9 (witness): a single-file run. -/
theorem C9_requires_two_files_witness :
    mainRun argsE engC = MainResult.exited 1
      "Please input at least two bigWig (.bw) files to compare" :=
  C9_requires_two_files argsE engC paE rfl (by decide)

/-- C10: the raw-file finalization (read all, seek 0, write header plus
content) leaves the previously written score rows unchanged: the final
content is exactly the header followed by the bytes that were in the file
before. -/
theorem C10_finalize_preserves_rows (header content : String) :
    prependHeader header content = header ++ content :=
  prependHeader_eq header content

end BigwigCorrelate
